import Mathlib

/-
Verification of the frostbee firmware (nRF52840 + Sensirion SHT40).

This file gives a shallow embedding of the numeric algorithms, state
machines and failure-handling code of the repository:

  - the SHT40 CRC-8 checksum and the serial/measurement response
    processing (src/app/src/03_i2c_raw_100k.c, 05_soft_reset.c);
  - the raw-word to physical-unit conversion, in two variants: the
    32-bit arithmetic of 03_i2c_raw_100k.c and the 64-bit arithmetic
    of 05_soft_reset.c;
  - the reset-and-retry recovery sequence of 05_soft_reset.c;
  - the I2C bus scan of 02_i2c_scan.c;
  - the battery sampler read_battery_voltage of main.c;
  - the button debounce / short / long press state machine of main.c.

C machine integers are embedded as Nat / Int with explicit wrapping:
a uint8_t conversion is a mod 256, an int32_t overflow is modelled with
two-complement wrap at 2^32, and C integer division (which truncates
toward zero) is Int.tdiv.
-/

/-- Two-complement wrap of an integer into the int32_t range, modelling
the value produced by a C signed 32-bit overflow under the usual
wrap-around behaviour of the target. -/
def i32wrap (n : ℤ) : ℤ := (n + 2 ^ 31) % 2 ^ 32 - 2 ^ 31

/- ───────────────────── SHT40 CRC-8 (03_i2c_raw_100k.c lines 43-58) ── -/

/-- One iteration of the inner bit loop of sht40_crc8: if the top bit of
the 8-bit accumulator is set, shift left and xor the polynomial 0x31,
else just shift left; the assignment back to uint8_t reduces mod 256. -/
def crc8_step (c : ℕ) : ℕ :=
  if c &&& 0x80 ≠ 0 then ((c * 2) ^^^ 0x31) % 256 else (c * 2) % 256

/-- Processing of one data byte by sht40_crc8: xor the byte into the
accumulator, then run the bit loop eight times. -/
def crc8_update (c b : ℕ) : ℕ := crc8_step^[8] (c ^^^ b)

/-- The CRC-8 of sht40_crc8 (polynomial 0x31, initial value 0xFF),
folded over the data bytes. -/
def sht40_crc8 (data : List ℕ) : ℕ := data.foldl crc8_update 0xFF

/-- The eight bits of a byte, most significant first. -/
def byteBitsMSB (b : ℕ) : List Bool := (List.range 8).map (fun i => b.testBit (7 - i))

/-- Reference bit-serial CRC-8 step: feed one message bit; if the top
bit of the accumulator differs from the incoming bit, shift and xor the
polynomial 0x31, else just shift. This is the textbook MSB-first,
non-reflected CRC with no final xor. -/
def crcBitStep (c : ℕ) (m : Bool) : ℕ :=
  let s := (c * 2) % 256
  if (c.testBit 7) != m then s ^^^ 0x31 else s

/-- Reference bitwise CRC-8: polynomial 0x31, initial value 0xFF, the
message bits fed most significant bit first, byte by byte, with no
reflection and no final xor. -/
def crc8_bitwise (bytes : List ℕ) : ℕ :=
  ((bytes.map byteBitsMSB).flatten).foldl crcBitStep 0xFF

/- ──────────────── raw-word conversion (03 lines 139-147, 05 lines 113-120) ── -/

/-- Temperature conversion of 05_soft_reset.c line 116: the product
175000 * raw is formed in 64-bit arithmetic (175000LL), so no overflow
occurs; the division truncates (both operands nonnegative). Result in
thousandths of a degree. -/
def sht40_temp_milli (raw : ℕ) : ℤ := -45000 + Int.tdiv (175000 * (raw : ℤ)) 65535

/-- Humidity conversion of 05_soft_reset.c line 117, before clamping. -/
def sht40_hum_milli_pre (raw : ℕ) : ℤ := -6000 + Int.tdiv (125000 * (raw : ℤ)) 65535

/-- Humidity conversion with the two clamping branches of
05_soft_reset.c lines 119-120: first the lower bound 0, then the upper
bound 100000 (thousandths of a percent). -/
def sht40_hum_milli (raw : ℕ) : ℤ :=
  let h0 := sht40_hum_milli_pre raw
  let h1 := if h0 < 0 then 0 else h0
  if h1 > 100000 then 100000 else h1

/-- Temperature conversion of 03_i2c_raw_100k.c line 143: the product
175000 * raw is formed in int32_t arithmetic, which overflows for
raw >= 12272; the wrapped value is then divided by 65535. -/
def sht40_temp_milli_raw100k (raw : ℕ) : ℤ :=
  -45000 + Int.tdiv (i32wrap (175000 * (raw : ℤ))) 65535

/- ─────────── response processing (03 lines 91-109 and 112-155) ── -/

/-- Observable outcome of sht40_read_serial once both I2C transfers have
succeeded (03_i2c_raw_100k.c lines 88-109): the composed serial number,
one warning flag per checksum word (the code only logs on mismatch), and
the returned status. -/
structure Sht40Serial where
  serial : ℕ
  crc1_warn : Bool
  crc2_warn : Bool
  ret : ℤ
deriving DecidableEq

/-- Processing of a received 6-byte serial response by sht40_read_serial
(03_i2c_raw_100k.c lines 91-109): compute the CRC-8 of each 2-byte data
word, compare with the transmitted checksum byte (a mismatch is only
logged as a warning), compose the 32-bit serial from the four data
bytes, and return 0. -/
def sht40_read_serial_process (buf : List ℕ) : Sht40Serial :=
  let b0 := buf.getD 0 0
  let b1 := buf.getD 1 0
  let b2 := buf.getD 2 0
  let b3 := buf.getD 3 0
  let b4 := buf.getD 4 0
  let b5 := buf.getD 5 0
  let crc1 := sht40_crc8 [b0, b1]
  let crc2 := sht40_crc8 [b3, b4]
  { serial := (b0 <<< 24) ||| (b1 <<< 16) ||| (b3 <<< 8) ||| b4
    crc1_warn := crc1 != b2
    crc2_warn := crc2 != b5
    ret := 0 }

/-- Observable outcome of sht40_measure once both I2C transfers have
succeeded: converted temperature and humidity and the returned status. -/
structure Sht40Measurement where
  temp_milli : ℤ
  hum_milli : ℤ
  ret : ℤ
deriving DecidableEq

/-- Processing of a received 6-byte measurement response by
sht40_measure (05_soft_reset.c lines 113-126): extract the two raw
words from bytes 0-1 and 3-4, convert them, and return 0. No checksum
is computed on this path, so bytes 2 and 5 are never inspected. -/
def sht40_measure_process (buf : List ℕ) : Sht40Measurement :=
  let raw_temp := ((buf.getD 0 0) <<< 8) ||| buf.getD 1 0
  let raw_hum := ((buf.getD 3 0) <<< 8) ||| buf.getD 4 0
  { temp_milli := sht40_temp_milli raw_temp
    hum_milli := sht40_hum_milli raw_hum
    ret := 0 }

/- ─────────────── recovery sequence (05_soft_reset.c lines 154-180) ── -/

/-- Outcome of the reset-and-retry sequence: number of read attempts
issued, number of soft resets issued, and whether a read succeeded. -/
structure RecTrace where
  attempts : ℕ
  resets : ℕ
  success : Bool
deriving DecidableEq

/-- The retry loop of 05_soft_reset.c lines 158-171: at each remaining
iteration, try the read for the current attempt number; on success stop,
on failure issue another soft reset and continue. When the iterations
are exhausted the last attempt has failed (and was followed by a reset,
since the reset in the loop body is not conditional on attempts
remaining). -/
def recovery_from (ok : ℕ → Bool) : ℕ → ℕ → ℕ → RecTrace
  | attempt, resets, 0 => ⟨attempt - 1, resets, false⟩
  | attempt, resets, rem + 1 =>
    if ok attempt then ⟨attempt, resets, true⟩
    else recovery_from ok (attempt + 1) (resets + 1) rem

/-- The full recovery sequence of main in 05_soft_reset.c lines 154-171:
a soft reset is issued before the loop (line 155, hence the initial
reset count of 1), then up to 3 read attempts run with a reset after
each failure. -/
def recovery_run (ok : ℕ → Bool) : RecTrace := recovery_from ok 1 1 3

/- ─────────────────────── bus scan (02_i2c_scan.c lines 60-88) ── -/

/-- The addresses probed by the scan loop of 02_i2c_scan.c line 65:
every address from 0x03 to 0x77 inclusive, in order, once each. -/
def scan_addresses : List ℕ := (List.range 117).map (· + 3)

/-- One pass of the bus scan: a zero-length write probe is issued to
each address of scan_addresses; an address is reported present exactly
when the probe returns no error (02_i2c_scan.c lines 73-77). -/
def i2c_scan (ack : ℕ → Bool) : List ℕ := scan_addresses.filter ack

/- ──────────────── battery sampler (main.c lines 449-553 and 740-752) ── -/

/-- The two device-context attributes written by read_battery_voltage. -/
structure BatCtx where
  battery_voltage : ℤ
  battery_percentage : ℤ
deriving DecidableEq

/-- Environment of one read_battery_voltage call: whether the ADC device
is ready, whether configuring the divider-enable pin succeeds, and the
outcome of each ADC read (none meaning the read returned an error). -/
structure BatEnv where
  adcReady : Bool
  enableOk : Bool
  adcRead : ℕ → Option ℤ

/-- The sampling loop of main.c lines 491-504: the reads run in order
and the first failing read aborts the whole collection. -/
def adc_collect (adcRead : ℕ → Option ℤ) : ℕ → Option (List ℤ)
  | 0 => some []
  | i + 1 =>
    match adc_collect adcRead i, adcRead i with
    | some xs, some x => some (xs ++ [x])
    | _, _ => none

/-- Observable outcome of read_battery_voltage: the returned value, the
final state of the divider-enable line (false = input / high impedance
= disabled), the computed battery millivolts (0 on the failure paths,
which never compute it), and the resulting device context. -/
structure BatResult where
  ret : ℤ
  divider : Bool
  battery_mv : ℤ
  ctx : BatCtx
deriving DecidableEq

/-- read_battery_voltage of main.c lines 468-553. The parameter d0 is
the state of the divider-enable line on entry. Paths, in source order:
ADC not ready returns 0 without touching the pin; enabling the divider
(line 479) failing returns 0 with the pin still in its entry state; a
failing ADC read reconfigures the pin to input (line 495) and returns 0
leaving the context untouched; on success the pin is reconfigured to
input (line 507), the five samples are sorted, the middle three are
averaged, scaled to millivolts, and the two context attributes are
written (lines 549-550). All divisions truncate toward zero as in C;
the uint8_t conversions reduce mod 256. -/
def read_battery_voltage (env : BatEnv) (d0 : Bool) (ctx : BatCtx) : BatResult :=
  if env.adcReady = false then ⟨0, d0, 0, ctx⟩
  else if env.enableOk = false then ⟨0, d0, 0, ctx⟩
  else
    match adc_collect env.adcRead 5 with
    | none => ⟨0, false, 0, ctx⟩
    | some samples =>
      let q := samples.mergeSort (· ≤ ·)
      let sum := q.getD 1 0 + q.getD 2 0 + q.getD 3 0
      let avg_sample := Int.tdiv sum 3
      let adc_mv := Int.tdiv (avg_sample * 600 * 6) 4095
      let battery_mv := adc_mv * 2
      let battery_zcl := (Int.tdiv battery_mv 100) % 256
      let praw0 := Int.tdiv ((battery_mv - 3000) * 200) 1500
      let praw1 := if praw0 < 0 then 0 else praw0
      let praw2 := if praw1 > 200 then 200 else praw1
      ⟨battery_zcl, false, battery_mv, ⟨battery_zcl, praw2⟩⟩

/-- The middle-three average taken by read_battery_voltage at main.c
lines 510-514: sort ascending, then average entries 1, 2 and 3 of the
sorted list with a truncating division by 3. -/
def battery_avg_sample (samples : List ℤ) : ℤ :=
  let q := samples.mergeSort (· ≤ ·)
  Int.tdiv (q.getD 1 0 + q.getD 2 0 + q.getD 3 0) 3

/-- State of the divider-enable line right after the initialization in
main at main.c line 748: the pin is configured as input, that is the
divider is disabled. -/
def main_vbat_init_divider : Bool := false

/- ─────────────── button monitor (main.c lines 139-267) ── -/

/-- The mutable state of the button monitor: the four static variables
of main.c lines 143-146 (the delayed factory-reset work item is
represented by its pending fire time, none when not scheduled), plus
counters of the two externally visible actions: immediate sensor reads
triggered (main.c line 204) and factory resets scheduled (line 169). -/
structure BtnState where
  pressed : Bool
  longHandled : Bool
  pressTime : ℕ
  factoryAt : Option ℕ
  reads : ℕ
  resets : ℕ
deriving DecidableEq

/-- factory_reset_handler of main.c lines 161-171, running at time t:
if the pin still reads pressed, mark the long press handled and
schedule the factory reset (counted as one reset action); otherwise do
nothing. -/
def factory_reset_handler (pin : ℕ → Bool) (t : ℕ) (s : BtnState) : BtnState :=
  if pin t then { s with longHandled := true, resets := s.resets + 1 } else s

/-- Delivery of a pending factory-reset work item: if one is scheduled
with fire time no later than now, it runs (at its fire time) and is no
longer pending. -/
def run_pending_factory (pin : ℕ → Bool) (now : ℕ) (s : BtnState) : BtnState :=
  match s.factoryAt with
  | some tf =>
    if tf ≤ now then factory_reset_handler pin tf { s with factoryAt := none } else s
  | none => s

/-- debounce_handler of main.c lines 173-210, running at time t: read
the settled pin level; do nothing if it equals the tracked state. On a
settled press, record the press time, clear the long-press flag and
schedule the factory-reset work 5000 ms out. On a settled release,
cancel the factory-reset work; if the long press was already handled
just clear the flag, otherwise a hold shorter than 1000 ms triggers one
immediate sensor read and a longer hold does nothing. -/
def debounce_handler (pin : ℕ → Bool) (t : ℕ) (s : BtnState) : BtnState :=
  let p := pin t
  if p = s.pressed then s
  else if p then
    { s with pressed := true, pressTime := t, longHandled := false,
             factoryAt := some (t + 5000) }
  else
    let s1 := { s with pressed := false, factoryAt := none }
    if s1.longHandled then { s1 with longHandled := false }
    else if t - s1.pressTime < 1000 then { s1 with reads := s1.reads + 1 }
    else s1

/-- One scheduled debounce check at time t: any factory-reset work item
that came due earlier runs first (the work queue is single threaded and
delivers in time order), then the debounce handler runs. -/
def button_step (pin : ℕ → Bool) (s : BtnState) (t : ℕ) : BtnState :=
  debounce_handler pin t (run_pending_factory pin t s)

/-- Run of the button monitor over a time-ordered list of scheduled
debounce checks. -/
def button_run (pin : ℕ → Bool) (events : List ℕ) (s0 : BtnState) : BtnState :=
  events.foldl (button_step pin) s0

/-- State established by button_init (main.c lines 250-264): the tracked
state is the pin level at boot, and when the button is already held the
long-press flag is set to suppress actions until the first release. -/
def button_boot (pinAtBoot : Bool) : BtnState :=
  { pressed := pinAtBoot, longHandled := pinAtBoot, pressTime := 0,
    factoryAt := none, reads := 0, resets := 0 }

/-- Pin level over time for a single physical press starting at time p
and held for d milliseconds. -/
def press_pin (p d : ℕ) : ℕ → Bool := fun t => decide (p ≤ t ∧ t < p + d)

/-- Bit list consumed by the bytewise CRC step: the top bit of the
residual byte, then the bits of the residual shifted left (mod 256). -/
def topBits : ℕ → ℕ → List Bool
  | 0, _ => []
  | n + 1, r => r.testBit 7 :: topBits n ((r * 2) % 256)

/- ──────────────────────────── theorems ── -/

theorem xor_mul_two (x y : ℕ) : (x ^^^ y) * 2 = x * 2 ^^^ y * 2 := by
  have h : ∀ z : ℕ, z * 2 = z <<< 1 := fun z => by rw [Nat.shiftLeft_eq]
  rw [h, h, h]
  apply Nat.eq_of_testBit_eq
  intro i
  cases i with
  | zero => simp only [Nat.testBit_shiftLeft, Nat.testBit_xor]; simp
  | succ j => simp only [Nat.testBit_shiftLeft, Nat.testBit_xor]; simp

theorem xor_mod_256 (x y : ℕ) : (x ^^^ y) % 256 = x % 256 ^^^ y % 256 := by
  have h : ∀ a b : ℕ, (a ^^^ b) % 2 ^ 8 = a % 2 ^ 8 ^^^ b % 2 ^ 8 := by
    intro a b
    apply Nat.eq_of_testBit_eq
    intro i
    simp only [Nat.testBit_mod_two_pow, Nat.testBit_xor]
    by_cases hi : i < 8 <;> simp [hi]
  have h8 := h x y
  norm_num at h8
  exact h8

theorem and_128_testBit (c : ℕ) : (c &&& 0x80 ≠ 0) ↔ c.testBit 7 = true := by
  have h := Nat.and_two_pow c 7
  norm_num at h
  rw [show (0x80 : ℕ) = 128 from rfl, h]
  cases hc : c.testBit 7 <;> simp

theorem crc8_step_xor (s r : ℕ) :
    crc8_step (s ^^^ r) = crcBitStep s (r.testBit 7) ^^^ (r * 2) % 256 := by
  have hshift : (s ^^^ r) * 2 = s * 2 ^^^ r * 2 := xor_mul_two s r
  by_cases h : s.testBit 7 = r.testBit 7
  · have h1 : ¬((s ^^^ r) &&& 0x80 ≠ 0) := by
      rw [and_128_testBit, Nat.testBit_xor, h]
      simp
    have h2 : (s.testBit 7 != r.testBit 7) = false := by rw [h]; simp
    simp only [crc8_step, crcBitStep, if_neg h1, h2, Bool.false_eq_true, if_false]
    rw [hshift, xor_mod_256]
  · have h1 : (s ^^^ r) &&& 0x80 ≠ 0 := by
      rw [and_128_testBit, Nat.testBit_xor]
      cases hs : s.testBit 7 <;> cases hr : r.testBit 7 <;> simp_all
    have h2 : (s.testBit 7 != r.testBit 7) = true := by
      cases hs : s.testBit 7 <;> cases hr : r.testBit 7 <;> simp_all
    simp only [crc8_step, crcBitStep, if_pos h1, h2, if_true]
    rw [hshift]
    rw [show (s * 2 ^^^ r * 2) ^^^ 0x31 = (s * 2 ^^^ 0x31) ^^^ r * 2 by
      rw [Nat.xor_assoc, Nat.xor_comm (r * 2) 0x31, ← Nat.xor_assoc]]
    rw [xor_mod_256]
    norm_num [xor_mod_256]

theorem crc8_iterate_eq (n : ℕ) :
    ∀ s r : ℕ, r < 256 →
      crc8_step^[n] (s ^^^ r) = (topBits n r).foldl crcBitStep s ^^^ (r * 2 ^ n) % 256 := by
  induction n with
  | zero =>
    intro s r hr
    simp [topBits, Nat.mod_eq_of_lt hr]
  | succ n ih =>
    intro s r hr
    rw [Function.iterate_succ_apply, crc8_step_xor s r]
    have hr2 : (r * 2) % 256 < 256 := Nat.mod_lt _ (by norm_num)
    rw [ih (crcBitStep s (r.testBit 7)) ((r * 2) % 256) hr2]
    have hmod : ((r * 2) % 256) * 2 ^ n % 256 = (r * 2 ^ (n + 1)) % 256 := by
      rw [Nat.mod_mul_mod]
      ring_nf
    rw [hmod]
    simp [topBits]

set_option maxRecDepth 10000 in
theorem topBits_eight : ∀ b < 256, topBits 8 b = byteBitsMSB b := by decide

theorem crc8_update_eq_bits (c b : ℕ) (hb : b < 256) :
    crc8_update c b = (byteBitsMSB b).foldl crcBitStep c := by
  have h := crc8_iterate_eq 8 c b hb
  rw [crc8_update, h, topBits_eight b hb]
  simp [Nat.mul_mod_left]

/-- C4: for every 2-byte data word, sht40_crc8 equals the reference
bitwise CRC-8 with polynomial 0x31 and initial value 0xFF, fed MSB
first with no reflection and no final xor; and the function is
deterministic. -/
theorem sht40_crc8_matches_reference :
    ∀ b0 < 256, ∀ b1 < 256,
      sht40_crc8 [b0, b1] = crc8_bitwise [b0, b1] ∧
      sht40_crc8 [b0, b1] = sht40_crc8 [b0, b1] := by
  intro b0 hb0 b1 hb1
  refine ⟨?_, rfl⟩
  have hl : sht40_crc8 [b0, b1] = crc8_update (crc8_update 0xFF b0) b1 := rfl
  have hr : crc8_bitwise [b0, b1] =
      (byteBitsMSB b1).foldl crcBitStep ((byteBitsMSB b0).foldl crcBitStep 0xFF) := by
    rw [crc8_bitwise]
    simp [List.foldl_append]
  rw [hl, hr, crc8_update_eq_bits 0xFF b0 hb0,
    crc8_update_eq_bits ((byteBitsMSB b0).foldl crcBitStep 0xFF) b1 hb1]

/-- Witness for C4 at the data word with bytes 0xBE 0xEF. -/
theorem sht40_crc8_matches_reference_witness :
    sht40_crc8 [0xBE, 0xEF] = crc8_bitwise [0xBE, 0xEF] ∧
    sht40_crc8 [0xBE, 0xEF] = sht40_crc8 [0xBE, 0xEF] :=
  sht40_crc8_matches_reference 0xBE (by norm_num) 0xEF (by norm_num)

/-- C1: the 64-bit conversion of 05_soft_reset.c matches the SHT40
formula exactly in milli fixed point, with a single truncating division
(written as a floor division of the combined numerator, which agrees
because the numerator of the spec division is nonnegative): the
humidity is clamped into 0..100 percent, raw words (0, 0) give exactly
-45.00 C and a humidity clamped to 0.00 percent, and raw words
(65535, 65535) give exactly 130.00 C and 100.00 percent. The last
conjunct evaluates the 32-bit variant of 03_i2c_raw_100k.c at
rawWord0 = 65535: the product 175000 * 65535 overflows int32_t and the
conversion yields -66.611 C instead of 130.00 C, so that variant
violates the formula (code bug; the 05 and 09 variants use 175000LL on
purpose). -/
theorem sht40_convert_c1 :
    (∀ raw : ℕ, sht40_temp_milli raw = (175000 * (raw : ℤ) - 2949075000) / 65535) ∧
    (∀ raw : ℕ, sht40_hum_milli_pre raw = (125000 * (raw : ℤ) - 393210000) / 65535) ∧
    (∀ raw : ℕ, 0 ≤ sht40_hum_milli raw ∧ sht40_hum_milli raw ≤ 100000) ∧
    sht40_temp_milli 0 = -45000 ∧ sht40_hum_milli 0 = 0 ∧
    sht40_temp_milli 65535 = 130000 ∧ sht40_hum_milli 65535 = 100000 ∧
    sht40_temp_milli_raw100k 65535 = -66611 := by
  refine ⟨?_, ?_, ?_, by decide, by decide, by decide, by decide, by decide⟩
  · intro raw
    rw [sht40_temp_milli, Int.tdiv_eq_ediv (by positivity) (by norm_num)]
    rw [show 175000 * (raw : ℤ) - 2949075000 = 175000 * (raw : ℤ) + (-45000) * 65535 by ring]
    rw [Int.add_mul_ediv_right _ _ (by norm_num : (65535 : ℤ) ≠ 0)]
    ring
  · intro raw
    rw [sht40_hum_milli_pre, Int.tdiv_eq_ediv (by positivity) (by norm_num)]
    rw [show 125000 * (raw : ℤ) - 393210000 = 125000 * (raw : ℤ) + (-6000) * 65535 by ring]
    rw [Int.add_mul_ediv_right _ _ (by norm_num : (65535 : ℤ) ≠ 0)]
    ring
  · intro raw
    simp only [sht40_hum_milli]
    constructor
    · split_ifs <;> omega
    · split_ifs <;> omega

/-- Witness for C1 at raw word 1000. -/
theorem sht40_convert_c1_witness :
    sht40_temp_milli 1000 = (175000 * ((1000 : ℕ) : ℤ) - 2949075000) / 65535 ∧
    sht40_hum_milli_pre 1000 = (125000 * ((1000 : ℕ) : ℤ) - 393210000) / 65535 ∧
    0 ≤ sht40_hum_milli 1000 ∧ sht40_hum_milli 1000 ≤ 100000 :=
  ⟨sht40_convert_c1.1 1000, sht40_convert_c1.2.1 1000,
   (sht40_convert_c1.2.2.1 1000).1, (sht40_convert_c1.2.2.1 1000).2⟩

/-- C2 counterexample: with a transport that fails attempts 1 and 2 and
succeeds on attempt 3, the sequence of 05_soft_reset.c issues three
soft resets (one before attempt 1 at line 155, one after each of the
two failed attempts), not the two the claim states. -/
theorem recovery_counterexample :
    (recovery_run (fun n => n == 3)).success = true ∧
    (recovery_run (fun n => n == 3)).resets = 3 ∧
    (recovery_run (fun n => n == 3)).resets ≠ 2 := by decide

/-- C2 amended: the recovery sequence issues one soft reset before
attempt 1 and one after every failed attempt (including the last): a
transport failing attempts 1 and 2 and succeeding on attempt 3 yields
success after 3 attempts with exactly three reset invocations, and a
transport that always fails reports failure after exactly 3 attempts,
not more, with four reset invocations. -/
theorem recovery_run_spec :
    (∀ ok : ℕ → Bool, ok 1 = false → ok 2 = false → ok 3 = true →
      recovery_run ok = ⟨3, 3, true⟩) ∧
    (∀ ok : ℕ → Bool, ok 1 = false → ok 2 = false → ok 3 = false →
      recovery_run ok = ⟨3, 4, false⟩) := by
  constructor <;>
    · intro ok h1 h2 h3
      simp [recovery_run, recovery_from, h1, h2, h3]

/-- Witness for C2 with a succeed-on-third transport and an always-fail
transport. -/
theorem recovery_run_spec_witness :
    recovery_run (fun n => n == 3) = ⟨3, 3, true⟩ ∧
    recovery_run (fun _ => false) = ⟨3, 4, false⟩ :=
  ⟨recovery_run_spec.1 (fun n => n == 3) rfl rfl rfl,
   recovery_run_spec.2 (fun _ => false) rfl rfl rfl⟩

/-- C3 counterexample: a 6-byte measurement response whose two checksum
bytes are both wrong (0x00 is the CRC-8 of neither data word) is
processed by sht40_measure exactly like the response carrying the
correct checksums: the measurement path computes no checksum and
reports no validity, contradicting the claim that every 6-byte response
has its per-word CRC checked and reported through a validity flag. -/
theorem sht40_measure_no_validity :
    sht40_crc8 [0x12, 0x34] ≠ 0x00 ∧ sht40_crc8 [0x56, 0x78] ≠ 0x00 ∧
    sht40_measure_process [0x12, 0x34, 0x00, 0x56, 0x78, 0x00] =
      sht40_measure_process
        [0x12, 0x34, sht40_crc8 [0x12, 0x34], 0x56, 0x78, sht40_crc8 [0x56, 0x78]] :=
  ⟨by decide, by decide, rfl⟩

/-- C3 amended: sht40_read_serial computes the CRC-8 of each 2-byte data
word and compares it with the transmitted checksum byte; a mismatch is
reported only through the per-word warning (the warning is absent
exactly when the word verifies) and never aborts the call or changes
the returned success status 0. sht40_measure performs no checksum
validation at all: its result is independent of the two checksum
bytes. -/
theorem sht40_checksum_reporting :
    (∀ b0 b1 b2 b3 b4 b5 : ℕ,
      (sht40_read_serial_process [b0, b1, b2, b3, b4, b5]).ret = 0 ∧
      ((sht40_read_serial_process [b0, b1, b2, b3, b4, b5]).crc1_warn = false ↔
        sht40_crc8 [b0, b1] = b2) ∧
      ((sht40_read_serial_process [b0, b1, b2, b3, b4, b5]).crc2_warn = false ↔
        sht40_crc8 [b3, b4] = b5)) ∧
    (∀ b0 b1 b2 b3 b4 b5 c2 c5 : ℕ,
      sht40_measure_process [b0, b1, c2, b3, b4, c5] =
        sht40_measure_process [b0, b1, b2, b3, b4, b5]) := by
  constructor
  · intro b0 b1 b2 b3 b4 b5
    refine ⟨rfl, ?_, ?_⟩ <;> simp [sht40_read_serial_process]
  · intro b0 b1 b2 b3 b4 b5 c2 c5
    rfl

/-- Witness for C3 on a concrete valid word and a concrete checksum-byte
change that leaves the measurement result untouched. -/
theorem sht40_checksum_reporting_witness :
    (sht40_read_serial_process [0xBE, 0xEF, 0x92, 0xBE, 0xEF, 0x92]).ret = 0 ∧
    ((sht40_read_serial_process [0xBE, 0xEF, 0x92, 0xBE, 0xEF, 0x92]).crc1_warn = false ↔
      sht40_crc8 [0xBE, 0xEF] = 0x92) ∧
    sht40_measure_process [1, 2, 3, 4, 5, 6] = sht40_measure_process [1, 2, 99, 4, 5, 100] :=
  ⟨(sht40_checksum_reporting.1 0xBE 0xEF 0x92 0xBE 0xEF 0x92).1,
   (sht40_checksum_reporting.1 0xBE 0xEF 0x92 0xBE 0xEF 0x92).2.1,
   sht40_checksum_reporting.2 1 2 99 4 5 100 3 6⟩

/-- C5: the scan probes exactly the addresses 0x03 to 0x77, each once
(the probe list has no duplicate and contains precisely that range), no
probe is retried (each address contributes a single probe), and the
reported set is exactly the set of acknowledged in-range addresses; in
particular a backend acknowledging only 0x44 yields exactly that
address and a backend acknowledging nothing yields the empty set. -/
theorem i2c_scan_spec :
    scan_addresses.Nodup ∧
    (∀ a : ℕ, a ∈ scan_addresses ↔ 3 ≤ a ∧ a ≤ 0x77) ∧
    (∀ (ack : ℕ → Bool) (a : ℕ),
      a ∈ i2c_scan ack ↔ ((3 ≤ a ∧ a ≤ 0x77) ∧ ack a = true)) ∧
    i2c_scan (fun a => a == 0x44) = [0x44] ∧
    i2c_scan (fun _ => false) = [] := by
  have hmem : ∀ a : ℕ, a ∈ scan_addresses ↔ 3 ≤ a ∧ a ≤ 0x77 := by
    intro a
    simp only [scan_addresses, List.mem_map, List.mem_range]
    constructor
    · rintro ⟨b, hb, rfl⟩
      omega
    · intro h
      exact ⟨a - 3, by omega, by omega⟩
  refine ⟨?_, hmem, ?_, by decide, by decide⟩
  · exact List.Nodup.map (fun a b h => by omega) (List.nodup_range 117)
  · intro ack a
    rw [i2c_scan, List.mem_filter, hmem a]

/-- Witness for C5 at address 0x44 with the ACK-only-0x44 backend. -/
theorem i2c_scan_spec_witness :
    (0x44 ∈ scan_addresses ↔ 3 ≤ 0x44 ∧ 0x44 ≤ 0x77) ∧
    (0x44 ∈ i2c_scan (fun a => a == 0x44) ↔
      ((3 ≤ 0x44 ∧ 0x44 ≤ 0x77) ∧ (0x44 == 0x44) = true)) :=
  ⟨i2c_scan_spec.2.1 0x44, i2c_scan_spec.2.2.1 (fun a => a == 0x44) 0x44⟩

theorem list_length_five {α : Type} (l : List α) (h : l.length = 5) :
    ∃ a b c d e : α, l = [a, b, c, d, e] := by
  rcases l with _ | ⟨a, _ | ⟨b, _ | ⟨c, _ | ⟨d, _ | ⟨e, _ | ⟨f, t⟩⟩⟩⟩⟩⟩ <;>
    simp at h
  exact ⟨a, b, c, d, e, rfl⟩

/-- C6: for every batch of 5 ADC readings, read_battery_voltage sorts
them ascending (the sorted list is an ordered permutation of the
batch), the first and last entries of the sorted list bound every
reading (so the two discarded entries are the minimum and the maximum),
and the reduced value is the truncated mean of the remaining middle
three; on the batch [10, 20, 30, 1000, 15] the sort gives
[10, 15, 20, 30, 1000], 10 and 1000 are discarded, and the average of
15, 20 and 30 is 65 / 3 = 21 under the truncating fixed-point rule. -/
theorem battery_avg_spec :
    (∀ samples : List ℤ, samples.length = 5 →
      ((samples.mergeSort (· ≤ ·)).Perm samples ∧
       List.Pairwise (· ≤ ·) (samples.mergeSort (· ≤ ·))) ∧
      (∀ x ∈ samples,
        (samples.mergeSort (· ≤ ·)).getD 0 0 ≤ x ∧
        x ≤ (samples.mergeSort (· ≤ ·)).getD 4 0) ∧
      battery_avg_sample samples =
        Int.tdiv ((samples.mergeSort (· ≤ ·)).getD 1 0 +
          (samples.mergeSort (· ≤ ·)).getD 2 0 +
          (samples.mergeSort (· ≤ ·)).getD 3 0) 3) ∧
    ([10, 20, 30, 1000, 15] : List ℤ).mergeSort (· ≤ ·) = [10, 15, 20, 30, 1000] ∧
    battery_avg_sample [10, 20, 30, 1000, 15] = 21 ∧
    (21 : ℤ) = Int.tdiv (15 + 20 + 30) 3 := by
  refine ⟨?_, ?_, ?_, by decide⟩
  · intro samples hlen
    have hperm : (samples.mergeSort (· ≤ ·)).Perm samples :=
      List.mergeSort_perm samples _
    have hsorted : List.Pairwise (· ≤ ·) (samples.mergeSort (· ≤ ·)) := by
      have h := @List.sorted_mergeSort ℤ (fun a b => decide (a ≤ b))
        (fun a b c h1 h2 => by simp at *; omega)
        (fun a b => by simp [Bool.or_eq_true]; omega)
        samples
      exact h.imp (fun hab => by simpa using hab)
    refine ⟨⟨hperm, hsorted⟩, ?_, rfl⟩
    intro x hx
    have hxq : x ∈ samples.mergeSort (· ≤ ·) := hperm.mem_iff.mpr hx
    have hlq : (samples.mergeSort (· ≤ ·)).length = 5 := hperm.length_eq.trans hlen
    obtain ⟨a, b, c, d, e, hq⟩ := list_length_five _ hlq
    rw [hq] at hxq hsorted ⊢
    simp only [List.pairwise_cons, List.mem_cons, List.not_mem_nil, or_false,
      forall_eq_or_imp, forall_eq] at hsorted
    simp only [List.mem_cons, List.not_mem_nil, or_false] at hxq
    simp only [List.getD_cons_zero, List.getD_cons_succ]
    obtain ⟨⟨h1, h2, h3, h4⟩, ⟨h5, h6, h7⟩, ⟨h8, h9⟩, h10⟩ := hsorted
    rcases hxq with rfl | rfl | rfl | rfl | rfl <;> constructor <;> omega
  · rw [List.mergeSort_eq_insertionSort]
    decide
  · rw [battery_avg_sample, List.mergeSort_eq_insertionSort]
    decide

/-- Witness for C6 on the batch [10, 20, 30, 1000, 15] at the reading
1000. -/
theorem battery_avg_spec_witness :
    (([10, 20, 30, 1000, 15] : List ℤ).mergeSort (· ≤ ·)).getD 0 0 ≤ 1000 ∧
    (1000 : ℤ) ≤ (([10, 20, 30, 1000, 15] : List ℤ).mergeSort (· ≤ ·)).getD 4 0 ∧
    battery_avg_sample [10, 20, 30, 1000, 15] =
      Int.tdiv ((([10, 20, 30, 1000, 15] : List ℤ).mergeSort (· ≤ ·)).getD 1 0 +
        (([10, 20, 30, 1000, 15] : List ℤ).mergeSort (· ≤ ·)).getD 2 0 +
        (([10, 20, 30, 1000, 15] : List ℤ).mergeSort (· ≤ ·)).getD 3 0) 3 :=
  ⟨((battery_avg_spec.1 [10, 20, 30, 1000, 15] rfl).2.1 1000 (by simp)).1,
   ((battery_avg_spec.1 [10, 20, 30, 1000, 15] rfl).2.1 1000 (by simp)).2,
   (battery_avg_spec.1 [10, 20, 30, 1000, 15] rfl).2.2⟩

/-- C7: with the button initially released, a press held 400 ms and
then released (settled checks at 100 ms debounce latency) triggers
exactly one immediate sensor read and no factory reset; a press held
6000 ms triggers exactly one factory reset and no immediate read; and
every hold whose settled duration lies between the short-press
threshold (1000 ms) and the long-press threshold (5000 ms) triggers no
action at all. -/
theorem button_press_classification :
    ((button_run (press_pin 0 400) [100, 500] (button_boot false)).reads = 1 ∧
     (button_run (press_pin 0 400) [100, 500] (button_boot false)).resets = 0) ∧
    ((button_run (press_pin 0 6000) [100, 6100] (button_boot false)).resets = 1 ∧
     (button_run (press_pin 0 6000) [100, 6100] (button_boot false)).reads = 0) ∧
    (∀ d : ℕ, 1000 ≤ d → d < 5000 →
      (button_run (press_pin 0 d) [100, d + 100] (button_boot false)).reads = 0 ∧
      (button_run (press_pin 0 d) [100, d + 100] (button_boot false)).resets = 0) := by
  refine ⟨by decide, by decide, ?_⟩
  intro d hd1 hd2
  have hp1 : press_pin 0 d 100 = true := by
    simp only [press_pin, decide_eq_true_eq]
    omega
  have hp2 : press_pin 0 d (d + 100) = false := by
    simp only [press_pin, decide_eq_false_iff_not]
    omega
  have hstep1 : button_step (press_pin 0 d) (button_boot false) 100 =
      { pressed := true, longHandled := false, pressTime := 100,
        factoryAt := some 5100, reads := 0, resets := 0 } := by
    simp [button_step, run_pending_factory, button_boot, debounce_handler, hp1]
  have h51 : ¬(5100 ≤ d + 100) := by omega
  have hd3 : ¬(d + 100 - 100 < 1000) := by omega
  have hd4 : ¬d < 1000 := by omega
  rw [button_run, List.foldl_cons, List.foldl_cons, List.foldl_nil, hstep1]
  simp [button_step, run_pending_factory, debounce_handler, factory_reset_handler,
    hp2, h51, hd3, hd4]

/-- Witness for C7 with a hold of 3000 ms. -/
theorem button_press_classification_witness :
    (button_run (press_pin 0 3000) [100, 3000 + 100] (button_boot false)).reads = 0 ∧
    (button_run (press_pin 0 3000) [100, 3000 + 100] (button_boot false)).resets = 0 :=
  button_press_classification.2.2 3000 (by norm_num) (by norm_num)

/-- C8: when the button already reads pressed at initialization,
button_init records the state as pressed with the suppression flag set;
releasing that boot press triggers no action (here after a 2000 ms
hold, and likewise after a 9000 ms hold, which can trigger no factory
reset because no long-press timer was armed at boot), and a subsequent
normal 400 ms press is handled normally, triggering exactly one
immediate read and no factory reset. -/
theorem button_boot_press_suppressed :
    (button_boot true).pressed = true ∧ (button_boot true).longHandled = true ∧
    (button_run (fun t => decide (t < 2000) || press_pin 10000 400 t) [2100]
        (button_boot true) =
      { pressed := false, longHandled := false, pressTime := 0,
        factoryAt := none, reads := 0, resets := 0 }) ∧
    ((button_run (fun t => decide (t < 2000) || press_pin 10000 400 t) [2100, 10100, 10500]
        (button_boot true)).reads = 1 ∧
     (button_run (fun t => decide (t < 2000) || press_pin 10000 400 t) [2100, 10100, 10500]
        (button_boot true)).resets = 0) ∧
    ((button_run (fun t => decide (t < 9000)) [9100] (button_boot true)).resets = 0 ∧
     (button_run (fun t => decide (t < 9000)) [9100] (button_boot true)).reads = 0) := by
  exact ⟨rfl, rfl, by decide, by decide, by decide⟩

/-- C9: the divider-enable line is configured disabled (input, high
impedance) at initialization, and whenever read_battery_voltage is
entered with the divider disabled, every exit path of the call,
including the paths where the ADC is not ready, where enabling the
divider fails, and where one of the five ADC reads fails, leaves the
divider disabled again, so the divider is never left enabled outside an
active sample. -/
theorem vbat_divider_always_disabled :
    main_vbat_init_divider = false ∧
    (∀ (env : BatEnv) (d0 : Bool) (ctx : BatCtx), d0 = false →
      (read_battery_voltage env d0 ctx).divider = false) := by
  refine ⟨rfl, ?_⟩
  intro env d0 ctx hd0
  subst hd0
  rw [read_battery_voltage]
  split_ifs with h1 h2
  · rfl
  · rfl
  · rcases hcol : adc_collect env.adcRead 5 with _ | samples <;> simp [hcol]

/-- Witness for C9 with a concrete healthy environment. -/
theorem vbat_divider_always_disabled_witness :
    (read_battery_voltage ⟨true, true, fun _ => some 2048⟩ false ⟨45, 200⟩).divider = false :=
  vbat_divider_always_disabled.2 ⟨true, true, fun _ => some 2048⟩ false ⟨45, 200⟩ rfl

/-- C10: the sample collection fails exactly when one of the five ADC
reads fails; on every failure path (ADC not ready, divider enable
failed, or a failing read) read_battery_voltage returns 0 and leaves
the two battery attributes of the device context unchanged; and on the
success path the stored battery percentage is the linear map
(battery_mv - 3000) * 200 / 1500 clamped into 0..200, while the stored
battery voltage equals the returned value. -/
theorem read_battery_voltage_ctx_update :
    (∀ reads : ℕ → Option ℤ,
      adc_collect reads 5 = none ↔
        (reads 0 = none ∨ reads 1 = none ∨ reads 2 = none ∨
         reads 3 = none ∨ reads 4 = none)) ∧
    (∀ (env : BatEnv) (d0 : Bool) (ctx : BatCtx),
      env.adcReady = false ∨ env.enableOk = false ∨ adc_collect env.adcRead 5 = none →
      (read_battery_voltage env d0 ctx).ret = 0 ∧
      (read_battery_voltage env d0 ctx).ctx = ctx) ∧
    (∀ (env : BatEnv) (d0 : Bool) (ctx : BatCtx),
      env.adcReady = true → env.enableOk = true → adc_collect env.adcRead 5 ≠ none →
      (read_battery_voltage env d0 ctx).ctx.battery_percentage =
        min 200 (max 0 (Int.tdiv
          (((read_battery_voltage env d0 ctx).battery_mv - 3000) * 200) 1500)) ∧
      (read_battery_voltage env d0 ctx).ctx.battery_voltage =
        (read_battery_voltage env d0 ctx).ret) := by
  refine ⟨?_, ?_, ?_⟩
  · intro reads
    rcases h0 : reads 0 with _ | v0 <;> rcases h1 : reads 1 with _ | v1 <;>
      rcases h2 : reads 2 with _ | v2 <;> rcases h3 : reads 3 with _ | v3 <;>
      rcases h4 : reads 4 with _ | v4 <;>
      simp [adc_collect, h0, h1, h2, h3, h4]
  · intro env d0 ctx h
    rw [read_battery_voltage]
    split_ifs with h1 h2
    · exact ⟨rfl, rfl⟩
    · exact ⟨rfl, rfl⟩
    · rcases hcol : adc_collect env.adcRead 5 with _ | samples
      · simp [hcol]
      · exfalso
        rcases h with h | h | h
        · exact h1 h
        · exact h2 h
        · rw [hcol] at h
          exact Option.noConfusion h
  · intro env d0 ctx h1 h2 h3
    rw [read_battery_voltage]
    simp only [h1, h2, Bool.true_eq_false, if_false]
    rcases hcol : adc_collect env.adcRead 5 with _ | samples
    · exact absurd hcol h3
    · simp only [hcol]
      constructor
      · split_ifs <;> omega
      · trivial

/-- Witness for C10 with an always-failing read set, a not-ready ADC,
and a healthy environment. -/
theorem read_battery_voltage_ctx_update_witness :
    (adc_collect (fun _ => none) 5 = none ↔
      ((fun _ : ℕ => (none : Option ℤ)) 0 = none ∨ (fun _ : ℕ => (none : Option ℤ)) 1 = none ∨
       (fun _ : ℕ => (none : Option ℤ)) 2 = none ∨ (fun _ : ℕ => (none : Option ℤ)) 3 = none ∨
       (fun _ : ℕ => (none : Option ℤ)) 4 = none)) ∧
    ((read_battery_voltage ⟨false, true, fun _ => some 0⟩ false ⟨45, 200⟩).ret = 0 ∧
     (read_battery_voltage ⟨false, true, fun _ => some 0⟩ false ⟨45, 200⟩).ctx = ⟨45, 200⟩) ∧
    (read_battery_voltage ⟨true, true, fun _ => some 2048⟩ false ⟨45, 200⟩).ctx.battery_voltage =
      (read_battery_voltage ⟨true, true, fun _ => some 2048⟩ false ⟨45, 200⟩).ret :=
  ⟨read_battery_voltage_ctx_update.1 (fun _ => none),
   read_battery_voltage_ctx_update.2.1 ⟨false, true, fun _ => some 0⟩ false ⟨45, 200⟩
     (Or.inl rfl),
   (read_battery_voltage_ctx_update.2.2 ⟨true, true, fun _ => some 2048⟩ false ⟨45, 200⟩
     rfl rfl (by decide)).2⟩
